import Mathlib

/-!
Verification development for the fxDrawingContext repository: a dual-backend
2-D vector drawing abstraction.  The source (C++/wxWidgets) is shallowly
embedded here:

* geometry (`double` in the source) is modelled by `ℚ` for the purely
  algebraic parts, and the arc approximator is additionally kept generic in
  the cosine/sine functions (the source calls `std::cos`/`std::sin`; the
  sampling structure under verification does not depend on which
  trigonometric functions are plugged in, and the real-valued instance
  `Real.cos`/`Real.sin` is used where a concrete trigonometric fact matters);
* the C cast `(int)x` applied to a `double` truncates toward zero and is
  modelled by `cint`;
* backend objects (`wxGraphicsContext*`, `wxDC*`, `wxPen`, `wxBrush`) are
  modelled by handles / abstract type parameters, and each backend-visible
  primitive call is recorded in a trace;
* out-of-range `std::vector` indexing (undefined behaviour in the source) is
  modelled by returning `none`.
-/

/-- Fill rule (`wxPolygonFillMode`): `oddEven` is `wxODDEVEN_RULE`,
`winding` is `wxWINDING_RULE`. -/
inductive FillRule where
  | oddEven
  | winding
deriving DecidableEq, Repr

/-- Segment kinds, from `enum class fxPathSegmentType` in fxGraphicsPath.hpp. -/
inductive fxPathSegmentType where
  | MoveTo
  | LineTo
  | QuadCurveTo
  | CurveTo
  | Arc
  | ArcTo
  | Rectangle
  | RoundedRectangle
  | Ellipse
  | Close
deriving DecidableEq, Repr

/-- `struct fxPathSegment`: a tagged segment carrying an ordered point list
and (default-initialised) radius, angles and winding flag. -/
structure fxPathSegment where
  type : fxPathSegmentType
  points : List (ℚ × ℚ)
  radius : ℚ := 0
  startAngle : ℚ := 0
  endAngle : ℚ := 0
  clockwise : Bool := false
deriving DecidableEq, Repr

/-- `class fxGraphicsPath`: the optional native context association `m_gc`
(modelled as an optional handle; the mirrored native `wxGraphicsPath` object
itself is backend-owned and not modelled) plus the symbolic recording
`m_segments`. -/
structure fxGraphicsPath where
  gc : Option ℕ
  segments : List fxPathSegment
deriving DecidableEq, Repr

/-- The default constructor `fxGraphicsPath()` : no GC, empty recording. -/
def fxGraphicsPath.empty : fxGraphicsPath := ⟨none, []⟩

/-- `wxRect2DDouble` as used by the bounding-box queries. -/
structure Rect2D where
  x : ℚ
  y : ℚ
  w : ℚ
  h : ℚ
deriving DecidableEq, Repr

/-- `wxGraphicsMatrix` as an affine map
`(x, y) ↦ (a·x + c·y + tx, b·x + d·y + ty)`. -/
structure GMatrix where
  a : ℚ
  b : ℚ
  c : ℚ
  d : ℚ
  tx : ℚ
  ty : ℚ
deriving DecidableEq, Repr

/-- `wxGraphicsMatrix::TransformPoint`. -/
def GMatrix.transformPoint (m : GMatrix) (p : ℚ × ℚ) : ℚ × ℚ :=
  (m.a * p.1 + m.c * p.2 + m.tx, m.b * p.1 + m.d * p.2 + m.ty)

/-- The pure-translation matrix by `(dx, dy)`. -/
def translationMat (dx dy : ℚ) : GMatrix := ⟨1, 0, 0, 1, dx, dy⟩

/-- `fxGraphicsPath::MoveToPoint` (symbolic part: the native mirror call is
backend-owned and not modelled; the recording is appended unconditionally). -/
def fxGraphicsPath.MoveToPoint (p : fxGraphicsPath) (x y : ℚ) : fxGraphicsPath :=
  { p with segments := p.segments ++ [{ type := .MoveTo, points := [(x, y)] }] }

/-- `fxGraphicsPath::AddLineToPoint` (symbolic part). -/
def fxGraphicsPath.AddLineToPoint (p : fxGraphicsPath) (x y : ℚ) : fxGraphicsPath :=
  { p with segments := p.segments ++ [{ type := .LineTo, points := [(x, y)] }] }

/-- `fxGraphicsPath::AddCurveToPoint` (symbolic part). -/
def fxGraphicsPath.AddCurveToPoint (p : fxGraphicsPath)
    (cx1 cy1 cx2 cy2 x y : ℚ) : fxGraphicsPath :=
  { p with segments :=
      p.segments ++ [{ type := .CurveTo, points := [(cx1, cy1), (cx2, cy2), (x, y)] }] }

/-- `fxGraphicsPath::AddQuadCurveToPoint` (symbolic part). -/
def fxGraphicsPath.AddQuadCurveToPoint (p : fxGraphicsPath)
    (cx cy x y : ℚ) : fxGraphicsPath :=
  { p with segments :=
      p.segments ++ [{ type := .QuadCurveTo, points := [(cx, cy), (x, y)] }] }

/-- `fxGraphicsPath::AddArc` (symbolic part): stores only the centre point,
plus radius, angles and winding flag. -/
def fxGraphicsPath.AddArc (p : fxGraphicsPath)
    (x y r startAngle endAngle : ℚ) (clockwise : Bool) : fxGraphicsPath :=
  { p with segments :=
      p.segments ++ [{ type := .Arc, points := [(x, y)], radius := r,
                       startAngle := startAngle, endAngle := endAngle,
                       clockwise := clockwise }] }

/-- `fxGraphicsPath::AddArcToPoint` (symbolic part). -/
def fxGraphicsPath.AddArcToPoint (p : fxGraphicsPath)
    (x1 y1 x2 y2 r : ℚ) : fxGraphicsPath :=
  { p with segments :=
      p.segments ++ [{ type := .ArcTo, points := [(x1, y1), (x2, y2)], radius := r }] }

/-- `fxGraphicsPath::AddCircle` (symbolic part): stored as an Ellipse
segment with centre point and radius. -/
def fxGraphicsPath.AddCircle (p : fxGraphicsPath) (x y r : ℚ) : fxGraphicsPath :=
  { p with segments :=
      p.segments ++ [{ type := .Ellipse, points := [(x, y)], radius := r }] }

/-- `fxGraphicsPath::AddEllipse` (symbolic part). -/
def fxGraphicsPath.AddEllipse (p : fxGraphicsPath) (x y w h : ℚ) : fxGraphicsPath :=
  { p with segments :=
      p.segments ++ [{ type := .Ellipse, points := [(x, y), (x + w, y + h)] }] }

/-- `fxGraphicsPath::AddRectangle` (symbolic part). -/
def fxGraphicsPath.AddRectangle (p : fxGraphicsPath) (x y w h : ℚ) : fxGraphicsPath :=
  { p with segments :=
      p.segments ++ [{ type := .Rectangle, points := [(x, y), (x + w, y + h)] }] }

/-- `fxGraphicsPath::AddRoundedRectangle` (symbolic part). -/
def fxGraphicsPath.AddRoundedRectangle (p : fxGraphicsPath)
    (x y w h r : ℚ) : fxGraphicsPath :=
  { p with segments :=
      p.segments ++ [{ type := .RoundedRectangle, points := [(x, y), (x + w, y + h)],
                       radius := r }] }

/-- `fxGraphicsPath::CloseSubpath` (symbolic part). -/
def fxGraphicsPath.CloseSubpath (p : fxGraphicsPath) : fxGraphicsPath :=
  { p with segments := p.segments ++ [{ type := .Close, points := [] }] }

/-- `fxGraphicsPath::Transform` (symbolic part): transform every recorded
point of every segment in place. -/
def fxGraphicsPath.TransformPath (p : fxGraphicsPath) (m : GMatrix) : fxGraphicsPath :=
  { p with segments :=
      p.segments.map fun seg => { seg with points := seg.points.map m.transformPoint } }

/-- One update step of `fxGraphicsPath::ComputeSegmentsBoundingBox`'s loop
body, carrying `(minx, miny, maxx, maxy)`. -/
def bbStep (acc : (ℚ × ℚ) × (ℚ × ℚ)) (p : ℚ × ℚ) : (ℚ × ℚ) × (ℚ × ℚ) :=
  ((if p.1 < acc.1.1 then p.1 else acc.1.1,
    if p.2 < acc.1.2 then p.2 else acc.1.2),
   (if p.1 > acc.2.1 then p.1 else acc.2.1,
    if p.2 > acc.2.2 then p.2 else acc.2.2))

/-- `fxGraphicsPath::ComputeSegmentsBoundingBox`: empty segment list gives
the zero rectangle; otherwise min/max over every point of every segment,
starting from the sentinels `minx = miny = 1e9`, `maxx = maxy = -1e9`. -/
def ComputeSegmentsBoundingBox (segs : List fxPathSegment) : Rect2D :=
  if segs.isEmpty then ⟨0, 0, 0, 0⟩
  else
    let r := segs.foldl (fun acc seg => seg.points.foldl bbStep acc)
      ((10 ^ 9, 10 ^ 9), (-(10 ^ 9), -(10 ^ 9)))
    ⟨r.1.1, r.1.2, r.2.1 - r.1.1, r.2.2 - r.1.2⟩

/-- `fxGraphicsPath::GetBox`: with a GC, defer to the native path's box
(modelled by the abstract `nativeBox`); otherwise compute from the recorded
segments. -/
def fxGraphicsPath.GetBox (nativeBox : ℕ → Rect2D) (p : fxGraphicsPath) : Rect2D :=
  match p.gc with
  | some g => nativeBox g
  | none => ComputeSegmentsBoundingBox p.segments

/-- `fxGraphicsPath::GetCurrentPoint`: with no GC, the last point of the
last segment, or the origin. -/
def fxGraphicsPath.GetCurrentPoint (nativeCurrent : ℕ → ℚ × ℚ)
    (p : fxGraphicsPath) : ℚ × ℚ :=
  match p.gc with
  | some g => nativeCurrent g
  | none =>
    match p.segments.getLast? with
    | some seg =>
      match seg.points.getLast? with
      | some pt => pt
      | none => (0, 0)
    | none => (0, 0)

/-- `fxGraphicsPath::Contains`: with a GC, delegate to the native path
containment test (abstract `nativeContains`); with no GC, return `false`
unconditionally. -/
def fxGraphicsPath.Contains (nativeContains : ℕ → ℚ × ℚ → FillRule → Bool)
    (p : fxGraphicsPath) (pt : ℚ × ℚ) (fillStyle : FillRule) : Bool :=
  match p.gc with
  | some g => nativeContains g pt fillStyle
  | none => false

/-!  Geometry Approximator (fxGraphicsPath.cpp). -/

/-- The angle sampled by `ApproxArc` at index `i` of `steps`: the source
computes `t = i / steps` and, in the counter-clockwise case,
`angle = angleStart + t * (angleEnd - angleStart)`; in the clockwise case the
loop body overrides the angle with
`angle = angleStart - t * (angleStart - angleEnd)` (the earlier `totalAngle`
inversion is dead at that point). -/
def arcAngle {α : Type} [Field α] (angleStart angleEnd : α) (clockwise : Bool)
    (steps i : ℕ) : α :=
  let t : α := (i : α) / (steps : α)
  if clockwise then angleStart - t * (angleStart - angleEnd)
  else angleStart + t * (angleEnd - angleStart)

/-- The list of angles sampled by `ApproxArc` (`i = 0 .. steps`). -/
def sampledArcAngles {α : Type} [Field α] (angleStart angleEnd : α)
    (clockwise : Bool) (steps : ℕ) : List α :=
  (List.range (steps + 1)).map (arcAngle angleStart angleEnd clockwise steps)

/-- `ApproxArc` from fxGraphicsPath.cpp, generic in the cosine/sine
functions used to place each sampled angle on the circle (the source uses
`std::cos`/`std::sin`). -/
def ApproxArc {α : Type} [Field α] (cosF sinF : α → α) (cx cy r : α)
    (angleStart angleEnd : α) (clockwise : Bool) (steps : ℕ) : List (α × α) :=
  (sampledArcAngles angleStart angleEnd clockwise steps).map fun a =>
    (cx + r * cosF a, cy + r * sinF a)

/-- `ApproxQuadBezier` from fxGraphicsPath.cpp: samples the quadratic
Bernstein blend at `t = i / steps`, `i = 0 .. steps`. -/
def ApproxQuadBezier (x0 y0 cx cy x1 y1 : ℚ) (steps : ℕ) : List (ℚ × ℚ) :=
  (List.range (steps + 1)).map fun i : ℕ =>
    let t : ℚ := (i : ℚ) / (steps : ℚ)
    let mt : ℚ := 1 - t
    (mt * mt * x0 + 2 * t * mt * cx + t * t * x1,
     mt * mt * y0 + 2 * t * mt * cy + t * t * y1)

/-- `ApproxCubicBezier` from fxGraphicsPath.cpp: samples the cubic
Bernstein blend at `t = i / steps`, `i = 0 .. steps`. -/
def ApproxCubicBezier (x0 y0 cx1 cy1 cx2 cy2 x1 y1 : ℚ) (steps : ℕ) :
    List (ℚ × ℚ) :=
  (List.range (steps + 1)).map fun i : ℕ =>
    let t : ℚ := (i : ℚ) / (steps : ℚ)
    let mt : ℚ := 1 - t
    (mt * mt * mt * x0 + 3 * t * mt * mt * cx1 + 3 * t * t * mt * cx2 + t * t * t * x1,
     mt * mt * mt * y0 + 3 * t * mt * mt * cy1 + 3 * t * t * mt * cy2 + t * t * t * y1)

/-!  Fallback Renderer (`DrawPathOnDC` and helpers, fxDrawingContext.cpp). -/

/-- The C cast `(int)x` applied to a `double`: truncation toward zero. -/
def cint (q : ℚ) : ℤ :=
  if q < 0 then ⌈q⌉ else ⌊q⌋

/-- `wxPoint((int)p.m_x, (int)p.m_y)`. -/
def toIntPoint (p : ℚ × ℚ) : ℤ × ℤ :=
  (cint p.1, cint p.2)

/-- A primitive scan-conversion call issued by the fallback renderer to the
target `wxDC`. -/
inductive DCCall where
  | drawLines (pts : List (ℤ × ℤ))
  | drawPolygon (pts : List (ℤ × ℤ)) (fm : FillRule)
  | drawRectangle (x y w h : ℤ)
  | drawEllipse (x y w h : ℤ)
deriving DecidableEq, Repr

/-- The mutable state of `DrawPathOnDC`'s segment walk: the accumulating
subpath (`currentSubpath`, integer points), the `lastPt` cursor with its
`haveLastPt` flag, and the calls issued so far. -/
structure RenderState where
  subpath : List (ℤ × ℤ)
  lastPt : ℚ × ℚ
  haveLastPt : Bool
  calls : List DCCall
deriving DecidableEq, Repr

/-- The initial state of the walk. -/
def initRenderState : RenderState :=
  ⟨[], (0, 0), false, []⟩

/-- One iteration of `DrawPathOnDC`'s `switch` over a segment.  Each guarded
point access of the source is rendered as a pattern match; the unguarded
accesses `seg.points[0]` / `seg.points[1]` in the `Rectangle` case are
out-of-range for a malformed segment, which is modelled by `none`.
`cosF`/`sinF` abstract `std::cos`/`std::sin` and `piQ` abstracts the
`M_PI` constant used by the `RoundedRectangle` case. -/
def drawSeg (cosF sinF : ℚ → ℚ) (piQ : ℚ) (fm : FillRule)
    (st : RenderState) (seg : fxPathSegment) : Option RenderState :=
  match seg.type with
  | .MoveTo =>
    let st :=
      if st.subpath.isEmpty then st
      else { st with calls := st.calls ++ [.drawLines st.subpath], subpath := [] }
    match seg.points with
    | [] => some st
    | p :: _ =>
      some { st with lastPt := p, haveLastPt := true,
                     subpath := st.subpath ++ [toIntPoint p] }
  | .LineTo =>
    match seg.points with
    | [] => some st
    | p :: _ =>
      some { st with lastPt := p, haveLastPt := true,
                     subpath := st.subpath ++ [toIntPoint p] }
  | .QuadCurveTo =>
    match seg.points, st.haveLastPt with
    | c :: e :: _, true =>
      let poly := ApproxQuadBezier st.lastPt.1 st.lastPt.2 c.1 c.2 e.1 e.2 12
      some { st with subpath := st.subpath ++ (poly.drop 1).map toIntPoint,
                     lastPt := e }
    | _, _ => some st
  | .CurveTo =>
    match seg.points, st.haveLastPt with
    | c1 :: c2 :: e :: _, true =>
      let poly := ApproxCubicBezier st.lastPt.1 st.lastPt.2 c1.1 c1.2 c2.1 c2.2
        e.1 e.2 12
      some { st with subpath := st.subpath ++ (poly.drop 1).map toIntPoint,
                     lastPt := e }
    | _, _ => some st
  | .Arc =>
    match seg.points with
    | c :: _ =>
      let arcPts := ApproxArc cosF sinF c.1 c.2 seg.radius seg.startAngle
        seg.endAngle seg.clockwise 12
      some { st with subpath := st.subpath ++ arcPts.map toIntPoint,
                     lastPt := arcPts.getLastD (0, 0), haveLastPt := true }
    | [] => some st
  | .ArcTo =>
    match seg.points, st.haveLastPt with
    | p1 :: p2 :: _, true =>
      some { st with subpath := st.subpath ++ [toIntPoint p1, toIntPoint p2],
                     lastPt := p2 }
    | _, _ => some st
  | .Rectangle =>
    match seg.points with
    | p0 :: p1 :: _ =>
      some { st with calls := st.calls ++
        [.drawRectangle (cint p0.1) (cint p0.2)
          (cint (p1.1 - p0.1)) (cint (p1.2 - p0.2))] }
    | _ => none
  | .RoundedRectangle =>
    match seg.points with
    | p0 :: p1 :: _ =>
      let r := seg.radius
      let arcTL := ApproxArc cosF sinF (p0.1 + r) (p0.2 + r) r piQ
        (3 * piQ / 2) false 6
      let arcTR := ApproxArc cosF sinF (p1.1 - r) (p0.2 + r) r (3 * piQ / 2)
        (2 * piQ) false 6
      let arcBR := ApproxArc cosF sinF (p1.1 - r) (p1.2 - r) r 0
        (piQ / 2) false 6
      let arcBL := ApproxArc cosF sinF (p0.1 + r) (p1.2 - r) r (piQ / 2)
        piQ false 6
      let outline := (arcTL ++ arcTR ++ arcBR ++ arcBL).map toIntPoint
      let st := { st with calls := st.calls ++ [.drawPolygon outline fm] }
      if outline.isEmpty then some st
      else
        some { st with lastPt := (((outline.getLastD (0, 0)).1 : ℚ),
                                  ((outline.getLastD (0, 0)).2 : ℚ)),
                       haveLastPt := true }
    | _ => some st
  | .Ellipse =>
    match seg.points with
    | [c] =>
      let r := seg.radius
      some { st with calls := st.calls ++
        [.drawEllipse (cint (c.1 - r)) (cint (c.2 - r)) (cint (2 * r)) (cint (2 * r))] }
    | [p0, p1] =>
      some { st with calls := st.calls ++
        [.drawEllipse (cint p0.1) (cint p0.2)
          (cint (p1.1 - p0.1)) (cint (p1.2 - p0.2))] }
    | _ => some st
  | .Close =>
    if st.subpath.isEmpty then some st
    else some { st with calls := st.calls ++ [.drawPolygon st.subpath fm],
                        subpath := [] }

/-- The segment loop of `DrawPathOnDC`. -/
def runSegs (cosF sinF : ℚ → ℚ) (piQ : ℚ) (fm : FillRule)
    (st : RenderState) : List fxPathSegment → Option RenderState
  | [] => some st
  | seg :: rest =>
    match drawSeg cosF sinF piQ fm st seg with
    | none => none
    | some st' => runSegs cosF sinF piQ fm st' rest

/-- `DrawPathOnDC` (fxDrawingContext.cpp): walk the recorded segments,
then flush a remaining open subpath with `DrawLines`.  The result is the
issued call trace, or `none` if the walk performed an out-of-range point
access. -/
def DrawPathOnDC (cosF sinF : ℚ → ℚ) (piQ : ℚ) (path : fxGraphicsPath)
    (fm : FillRule) : Option (List DCCall) :=
  if path.segments.isEmpty then some []
  else
    match runSegs cosF sinF piQ fm initRenderState path.segments with
    | none => none
    | some st =>
      some (st.calls ++ if st.subpath.isEmpty then [] else [.drawLines st.subpath])

/-- The pen/brush state of a `wxDC`, with the pen and brush representations
abstract. -/
structure DCPenBrush (P B : Type) where
  pen : P
  brush : B
deriving DecidableEq, Repr

/-- `FillPathOnDC` (fxDrawingContext.cpp): save the pen, substitute the
transparent pen, run `DrawPathOnDC` with the requested fill mode (the walk
itself never touches the DC's pen or brush), restore the saved pen. -/
def FillPathOnDC {P B : Type} (cosF sinF : ℚ → ℚ) (piQ : ℚ)
    (transparentPen : P) (path : fxGraphicsPath) (fm : FillRule)
    (s : DCPenBrush P B) : DCPenBrush P B × Option (List DCCall) :=
  let oldPen := s.pen
  let s1 := { s with pen := transparentPen }
  let calls := DrawPathOnDC cosF sinF piQ path fm
  ({ s1 with pen := oldPen }, calls)

/-- `StrokePathOnDC` (fxDrawingContext.cpp): save the brush, substitute the
transparent brush, run `DrawPathOnDC` with `wxODDEVEN_RULE`, restore the
saved brush. -/
def StrokePathOnDC {P B : Type} (cosF sinF : ℚ → ℚ) (piQ : ℚ)
    (transparentBrush : B) (path : fxGraphicsPath)
    (s : DCPenBrush P B) : DCPenBrush P B × Option (List DCCall) :=
  let oldBrush := s.brush
  let s1 := { s with brush := transparentBrush }
  let calls := DrawPathOnDC cosF sinF piQ path .oddEven
  ({ s1 with brush := oldBrush }, calls)

/-!  Drawing Context (fxDrawingContext.hpp/.cpp). -/

/-- The `wxDC` surface subtype relevant to promotion probing: the source
uses `dynamic_cast` to `wxWindowDC` / `wxMemoryDC` / `wxPrinterDC`; any other
subtype (e.g. `wxSVGFileDC`) is `other`. -/
inductive DCKind where
  | window
  | memory
  | printer
  | other
deriving DecidableEq, Repr

/-- A raster surface handed to the `wxDC*` constructor: a handle, its
detected subtype, and the result of `wxGraphicsContext::Create` over it
(`none` when creation fails; only consulted for promotable subtypes). -/
structure DCSurface where
  id : ℕ
  kind : DCKind
  gcCreate : Option ℕ
deriving DecidableEq, Repr

/-- `fxDrawingContext`'s `ContextVariant`
(`std::variant<std::monostate, wxGraphicsContext*, wxDC*>`). -/
inductive fxCtx where
  | unbound
  | gcCtx (g : ℕ)
  | dcCtx (d : DCSurface)
deriving DecidableEq, Repr

/-- `fxDrawingContext::fxDrawingContext(wxGraphicsContext*)`: a null pointer
leaves the monostate, otherwise the pointer is stored. -/
def fxDrawingContextOfGC : Option ℕ → fxCtx
  | none => .unbound
  | some g => .gcCtx g

/-- `fxDrawingContext::fxDrawingContext(wxDC*)`: a null pointer leaves the
monostate; otherwise a known promotable subtype is probed with
`wxGraphicsContext::Create` and on success the created GC is stored (and
owned), else the raw DC is stored. -/
def fxDrawingContextOfDC : Option DCSurface → fxCtx
  | none => .unbound
  | some dc =>
    let rawGC := match dc.kind with
      | .window => dc.gcCreate
      | .memory => dc.gcCreate
      | .printer => dc.gcCreate
      | .other => none
    match rawGC with
    | some g => .gcCtx g
    | none => .dcCtx dc

/-- `fxDrawingContext::IsValid`. -/
def fxIsValid : fxCtx → Bool
  | .unbound => false
  | _ => true

/-- `fxDrawingContext::IsGC`. -/
def fxIsGC : fxCtx → Bool
  | .gcCtx _ => true
  | _ => false

/-- `fxDrawingContext::IsDC`. -/
def fxIsDC : fxCtx → Bool
  | .dcCtx _ => true
  | _ => false

/-- `wxAntialiasMode`. -/
inductive AAMode where
  | aaDefault
  | aaNone
deriving DecidableEq, Repr

/-- A backend call issued by a context-level operation, tagged with the
receiving backend handle.  GC-level calls keep fractional coordinates; the
DC-level primitives receive truncated integer coordinates as in the source
(`wxPoint`/`wxRect` construction from `wxDouble`). -/
inductive Call where
  | gcSetPen (g : ℕ) (pen : ℕ)
  | dcSetPen (d : ℕ) (pen : ℕ)
  | gcSetBrush (g : ℕ) (brush : ℕ)
  | dcSetBrush (d : ℕ) (brush : ℕ)
  | gcDrawRect (g : ℕ) (x y w h : ℚ)
  | dcDrawRect (d : ℕ) (x y w h : ℤ)
  | gcDrawText (g : ℕ) (text : String) (x y : ℚ)
  | dcDrawText (d : ℕ) (text : String) (x y : ℤ)
  | gcStrokeLine (g : ℕ) (x1 y1 x2 y2 : ℚ)
  | dcDrawLine (d : ℕ) (x1 y1 x2 y2 : ℤ)
  | gcDrawPath (g : ℕ) (p : fxGraphicsPath)
  | gcFillPath (g : ℕ) (p : fxGraphicsPath) (fm : FillRule)
  | gcStrokePath (g : ℕ) (p : fxGraphicsPath)
  | gcFlush (g : ℕ)
  | gcSetAntialias (g : ℕ) (m : AAMode)
  | dcCall (d : ℕ) (c : DCCall)
deriving DecidableEq, Repr

/-- `fxDrawingContext::SetPen`: dispatch on the variant; monostate is a
no-op. -/
def fxSetPen : fxCtx → ℕ → List Call
  | .unbound, _ => []
  | .gcCtx g, p => [.gcSetPen g p]
  | .dcCtx d, p => [.dcSetPen d.id p]

/-- `fxDrawingContext::SetBrush`. -/
def fxSetBrush : fxCtx → ℕ → List Call
  | .unbound, _ => []
  | .gcCtx g, b => [.gcSetBrush g b]
  | .dcCtx d, b => [.dcSetBrush d.id b]

/-- `fxDrawingContext::DrawRectangle` (DC branch: `wxRect(x, y, w, h)` from
doubles truncates each component). -/
def fxDrawRectangle : fxCtx → ℚ → ℚ → ℚ → ℚ → List Call
  | .unbound, _, _, _, _ => []
  | .gcCtx g, x, y, w, h => [.gcDrawRect g x y w h]
  | .dcCtx d, x, y, w, h => [.dcDrawRect d.id (cint x) (cint y) (cint w) (cint h)]

/-- `fxDrawingContext::DrawText` (unrotated). -/
def fxDrawText : fxCtx → String → ℚ → ℚ → List Call
  | .unbound, _, _, _ => []
  | .gcCtx g, t, x, y => [.gcDrawText g t x y]
  | .dcCtx d, t, x, y => [.dcDrawText d.id t (cint x) (cint y)]

/-- `fxDrawingContext::StrokeLine`. -/
def fxStrokeLine : fxCtx → ℚ → ℚ → ℚ → ℚ → List Call
  | .unbound, _, _, _, _ => []
  | .gcCtx g, x1, y1, x2, y2 => [.gcStrokeLine g x1 y1 x2 y2]
  | .dcCtx d, x1, y1, x2, y2 =>
    [.dcDrawLine d.id (cint x1) (cint y1) (cint x2) (cint y2)]

/-- `fxDrawingContext::Flush`: forwarded on a GC, no-op on a DC and when
unbound. -/
def fxFlush : fxCtx → List Call
  | .unbound => []
  | .gcCtx g => [.gcFlush g]
  | .dcCtx _ => []

/-- `fxDrawingContext::DrawPath`: native `DrawPath` on a GC; the fallback
renderer (with its default `wxODDEVEN_RULE`) on a DC; no-op when unbound. -/
def fxDrawPath (cosF sinF : ℚ → ℚ) (piQ : ℚ) :
    fxCtx → fxGraphicsPath → Option (List Call)
  | .unbound, _ => some []
  | .gcCtx g, p => some [.gcDrawPath g p]
  | .dcCtx d, p => (DrawPathOnDC cosF sinF piQ p .oddEven).map (List.map (.dcCall d.id))

/-- `fxDrawingContext::FillPath`: native fill on a GC; `FillPathOnDC` on a
DC (tracking the DC pen/brush state); no-op when unbound. -/
def fxFillPath (cosF sinF : ℚ → ℚ) (piQ : ℚ) (transparentPen : ℕ)
    (ctx : fxCtx) (p : fxGraphicsPath) (fs : FillRule)
    (s : DCPenBrush ℕ ℕ) : DCPenBrush ℕ ℕ × Option (List Call) :=
  match ctx with
  | .unbound => (s, some [])
  | .gcCtx g => (s, some [.gcFillPath g p fs])
  | .dcCtx d =>
    let r := FillPathOnDC cosF sinF piQ transparentPen p fs s
    (r.1, r.2.map (List.map (.dcCall d.id)))

/-- `fxDrawingContext::StrokePath`: native stroke on a GC; `StrokePathOnDC`
on a DC; no-op when unbound. -/
def fxStrokePath (cosF sinF : ℚ → ℚ) (piQ : ℚ) (transparentBrush : ℕ)
    (ctx : fxCtx) (p : fxGraphicsPath)
    (s : DCPenBrush ℕ ℕ) : DCPenBrush ℕ ℕ × Option (List Call) :=
  match ctx with
  | .unbound => (s, some [])
  | .gcCtx g => (s, some [.gcStrokePath g p])
  | .dcCtx d =>
    let r := StrokePathOnDC cosF sinF piQ transparentBrush p s
    (r.1, r.2.map (List.map (.dcCall d.id)))

/-- `fxDrawingContext::SetAntialiasMode`: forwarded on a GC (abstract
backend result `gcSetAA`); on a DC or unbound, `supported` stays `false`
and nothing is called. -/
def fxSetAntialiasMode (gcSetAA : ℕ → AAMode → Bool) :
    fxCtx → AAMode → Bool × List Call
  | .unbound, _ => (false, [])
  | .gcCtx g, m => (gcSetAA g m, [.gcSetAntialias g m])
  | .dcCtx _, _ => (false, [])

/-- `fxDrawingContext::GetAntialiasMode`: forwarded on a GC (abstract
backend result `gcGetAA`); on a DC or unbound, `wxANTIALIAS_DEFAULT`. -/
def fxGetAntialiasMode (gcGetAA : ℕ → AAMode) : fxCtx → AAMode
  | .unbound => .aaDefault
  | .gcCtx g => gcGetAA g
  | .dcCtx _ => .aaDefault

/-!  Theorems. -/

/-- C9: on a symbolic-only path (no native graphics context), `Contains`
returns `false` for every query point and every fill rule, whatever the
native containment test would have answered. -/
theorem C9_symbolic_contains_false
    (nativeContains : ℕ → ℚ × ℚ → FillRule → Bool)
    (segs : List fxPathSegment) (pt : ℚ × ℚ) (fr : FillRule) :
    fxGraphicsPath.Contains nativeContains ⟨none, segs⟩ pt fr = false := rfl

/-- C4: on a raster-only (`wxDC`) context, `FillPath` followed by
`StrokePath` restores the DC's pen and brush to their initial values, for
every path and fill rule: the fill saves and restores the pen around its
draw, the stroke saves and restores the brush, and the segment walk itself
never touches either. -/
theorem C4_fill_stroke_state_roundtrip
    (cosF sinF : ℚ → ℚ) (piQ : ℚ) (tpen tbrush : ℕ) (d : DCSurface)
    (path : fxGraphicsPath) (fs : FillRule) (s : DCPenBrush ℕ ℕ) :
    (fxStrokePath cosF sinF piQ tbrush (.dcCtx d) path
      (fxFillPath cosF sinF piQ tpen (.dcCtx d) path fs s).1).1 = s := rfl

/-- C5: constructing a context from a null `wxGraphicsContext*` or a null
`wxDC*` leaves it unbound with `IsValid()` false, and on an unbound context
every drawing operation issues no backend call and never fails. -/
theorem C5_unbound_noop :
    fxDrawingContextOfGC none = .unbound ∧
    fxDrawingContextOfDC none = .unbound ∧
    fxIsValid .unbound = false ∧
    (∀ p, fxSetPen .unbound p = []) ∧
    (∀ b, fxSetBrush .unbound b = []) ∧
    (∀ x y w h, fxDrawRectangle .unbound x y w h = []) ∧
    (∀ t x y, fxDrawText .unbound t x y = []) ∧
    (∀ x1 y1 x2 y2, fxStrokeLine .unbound x1 y1 x2 y2 = []) ∧
    (∀ cf sf piQ p, fxDrawPath cf sf piQ .unbound p = some []) ∧
    (∀ cf sf piQ tp p fs s, fxFillPath cf sf piQ tp .unbound p fs s = (s, some [])) ∧
    (∀ cf sf piQ tb p s, fxStrokePath cf sf piQ tb .unbound p s = (s, some [])) ∧
    fxFlush .unbound = [] := by
  refine ⟨rfl, rfl, rfl, ?_, ?_, ?_, ?_, ?_, ?_, ?_, ?_, rfl⟩ <;> intros <;> rfl

/-- C8: binding to an unpromotable raster-only surface yields the raw-DC
binding, on which `SetAntialiasMode` reports unsupported (`false`) for every
mode without issuing any backend call, and `GetAntialiasMode` reports the
default mode — before and after any such call, since the call changes
nothing. -/
theorem C8_raster_antialias_unsupported :
    (∀ i gcc, fxDrawingContextOfDC (some ⟨i, .other, gcc⟩) = .dcCtx ⟨i, .other, gcc⟩) ∧
    (∀ d gcSetAA mode, fxSetAntialiasMode gcSetAA (.dcCtx d) mode = (false, [])) ∧
    (∀ d gcGetAA, fxGetAntialiasMode gcGetAA (.dcCtx d) = .aaDefault) := by
  refine ⟨?_, ?_, ?_⟩ <;> intros <;> rfl

/-- Head of a map over `List.range (n+1)` is the image of `0`. -/
lemma head?_map_range {β : Type} (f : ℕ → β) (n : ℕ) :
    ((List.range (n + 1)).map f).head? = some (f 0) := by
  rw [List.range_succ_eq_map]
  simp

/-- Last element of a map over `List.range (n+1)` is the image of `n`. -/
lemma getLast?_map_range {β : Type} (f : ℕ → β) (n : ℕ) :
    ((List.range (n + 1)).map f).getLast? = some (f n) := by
  rw [List.range_succ, List.map_append]
  simp

/-- C2: for every step count `N ≥ 1`, the quadratic and cubic Bezier
approximators return exactly `N + 1` points, the first returned point equals
the start control point exactly, and the last returned point equals the end
control point exactly; concretely,
`ApproxQuadBezier (0,0) (5,10) (10,0) 2 = [(0,0), (5,5), (10,0)]`. -/
theorem C2_bezier_endpoints (x0 y0 cx cy c2x c2y x1 y1 : ℚ) (N : ℕ)
    (h : 1 ≤ N) :
    (ApproxQuadBezier x0 y0 cx cy x1 y1 N).length = N + 1 ∧
    (ApproxQuadBezier x0 y0 cx cy x1 y1 N).head? = some (x0, y0) ∧
    (ApproxQuadBezier x0 y0 cx cy x1 y1 N).getLast? = some (x1, y1) ∧
    (ApproxCubicBezier x0 y0 cx cy c2x c2y x1 y1 N).length = N + 1 ∧
    (ApproxCubicBezier x0 y0 cx cy c2x c2y x1 y1 N).head? = some (x0, y0) ∧
    (ApproxCubicBezier x0 y0 cx cy c2x c2y x1 y1 N).getLast? = some (x1, y1) ∧
    ApproxQuadBezier 0 0 5 10 10 0 2 = [(0, 0), (5, 5), (10, 0)] := by
  obtain ⟨M, rfl⟩ : ∃ M, N = M + 1 := ⟨N - 1, by omega⟩
  have hN : ((M : ℚ) + 1) / ((M : ℚ) + 1) = 1 := div_self (by positivity)
  refine ⟨?_, ?_, ?_, ?_, ?_, ?_, ?_⟩
  · rw [ApproxQuadBezier, List.length_map, List.length_range]
  · rw [ApproxQuadBezier, head?_map_range]
    norm_num
  · rw [ApproxQuadBezier, getLast?_map_range]
    norm_num [hN]
  · rw [ApproxCubicBezier, List.length_map, List.length_range]
  · rw [ApproxCubicBezier, head?_map_range]
    norm_num
  · rw [ApproxCubicBezier, getLast?_map_range]
    norm_num [hN]
  · rw [show ApproxQuadBezier 0 0 5 10 10 0 2 =
      (List.range 3).map _ from rfl,
      show List.range 3 = [0, 1, 2] from rfl]
    simp only [List.map]
    norm_num

/-- C2 witness: the theorem instantiated at the concrete quadratic scenario
with `N = 2`. -/
theorem C2_bezier_endpoints_witness :
    (1 ≤ 2) ∧
    ((ApproxQuadBezier 0 0 5 10 10 0 2).length = 2 + 1 ∧
     (ApproxQuadBezier 0 0 5 10 10 0 2).head? = some (0, 0) ∧
     (ApproxQuadBezier 0 0 5 10 10 0 2).getLast? = some (10, 0) ∧
     (ApproxCubicBezier 0 0 5 10 3 4 10 0 2).length = 2 + 1 ∧
     (ApproxCubicBezier 0 0 5 10 3 4 10 0 2).head? = some (0, 0) ∧
     (ApproxCubicBezier 0 0 5 10 3 4 10 0 2).getLast? = some (10, 0) ∧
     ApproxQuadBezier 0 0 5 10 10 0 2 = [(0, 0), (5, 5), (10, 0)]) :=
  ⟨by decide, C2_bezier_endpoints 0 0 5 10 3 4 10 0 2 (by decide)⟩

/-- The angular span actually sampled by `ApproxArc`: the absolute
difference between the last and the first sampled angle. -/
def sampledSpan {α : Type} [LinearOrderedField α] (angleStart angleEnd : α)
    (clockwise : Bool) (steps : ℕ) : α :=
  |(sampledArcAngles angleStart angleEnd clockwise steps).getLastD 0 -
    (sampledArcAngles angleStart angleEnd clockwise steps).headD 0|

/-- The clockwise branch of the arc angle formula is algebraically identical
to the counter-clockwise one. -/
lemma arcAngle_flag {α : Type} [Field α] (s e : α) (cw : Bool) (N i : ℕ) :
    arcAngle s e cw N i = arcAngle s e false N i := by
  cases cw
  · rfl
  · simp only [arcAngle, if_true, Bool.false_eq_true, if_false]
    ring

/-- The first sampled arc angle is the start angle. -/
lemma arcAngle_zero {α : Type} [Field α] (s e : α) (cw : Bool) (N : ℕ) :
    arcAngle s e cw N 0 = s := by
  cases cw <;> simp [arcAngle]

/-- The last sampled arc angle is the end angle (for at least one step). -/
lemma arcAngle_last {α : Type} [Field α] [CharZero α] (s e : α) (cw : Bool)
    (N : ℕ) (h : 1 ≤ N) : arcAngle s e cw N N = e := by
  have hN : ((N : ℕ) : α) ≠ 0 := Nat.cast_ne_zero.2 (by omega)
  cases cw <;> simp [arcAngle, div_self hN]

/-- C1 (amended): for every centre, radius, angles and step count `N ≥ 1`,
the arc approximator's sampled angular span equals
`|endAngle - startAngle|` regardless of the `clockwise` flag; however,
flipping `clockwise` yields the *identical* point sequence — the flag has no
effect on the sampled angles at all — not the reversed sequence. -/
theorem C1_arc_span_flag {α : Type} [LinearOrderedField α] (cosF sinF : α → α)
    (cx cy r s e : α) (cw : Bool) (N : ℕ) (h : 1 ≤ N) :
    sampledSpan s e cw N = |e - s| ∧
    ApproxArc cosF sinF cx cy r s e cw N =
      ApproxArc cosF sinF cx cy r s e (!cw) N := by
  constructor
  · rw [sampledSpan, sampledArcAngles, List.getLastD_eq_getLast?,
      List.headD_eq_head?, head?_map_range, getLast?_map_range,
      arcAngle_zero, arcAngle_last s e cw N h]
    rfl
  · rw [ApproxArc, ApproxArc, sampledArcAngles, sampledArcAngles]
    apply congrArg
    apply List.map_congr_left
    intro i _
    rw [arcAngle_flag s e cw N i, arcAngle_flag s e (!cw) N i]

/-- C1 witness: the amended theorem instantiated at `α = ℚ`, centre `(0,0)`,
radius `1`, angles `2` and `5`, clockwise, `N = 2`. -/
theorem C1_arc_span_flag_witness :
    (1 ≤ 2) ∧
    (sampledSpan (2 : ℚ) 5 true 2 = |(5 : ℚ) - 2| ∧
     ApproxArc (fun q : ℚ => q) (fun q : ℚ => q) 0 0 1 2 5 true 2 =
       ApproxArc (fun q : ℚ => q) (fun q : ℚ => q) 0 0 1 2 5 (!true) 2) :=
  ⟨by decide, C1_arc_span_flag (fun q => q) (fun q => q) 0 0 1 2 5 true 2 (by decide)⟩

/-- C1 counterexample: with the real cosine and sine (as in the source),
the arc sampled clockwise from `0` to `π` on the unit circle is *not* the
reverse of the one sampled counter-clockwise: both runs produce
`[(1,0), (-1,0)]`, whose reverse is `[(-1,0), (1,0)]`.  This refutes the
claim that reversing the `clockwise` flag reverses the point order. -/
theorem C1_arc_reverse_counterexample :
    ApproxArc Real.cos Real.sin 0 0 1 0 Real.pi true 1 ≠
      (ApproxArc Real.cos Real.sin 0 0 1 0 Real.pi false 1).reverse := by
  have hL : ApproxArc Real.cos Real.sin 0 0 1 0 Real.pi true 1 =
      [(1, 0), (-1, 0)] := by
    norm_num [ApproxArc, sampledArcAngles, arcAngle, List.range_succ]
  have hR : ApproxArc Real.cos Real.sin 0 0 1 0 Real.pi false 1 =
      [(1, 0), (-1, 0)] := by
    norm_num [ApproxArc, sampledArcAngles, arcAngle, List.range_succ]
  rw [hL, hR]
  intro hcontra
  rw [List.reverse_cons, List.reverse_singleton] at hcontra
  have h1 := List.head_eq_of_cons_eq hcontra
  have h2 : (1 : ℝ) = -1 := congrArg Prod.fst h1
  norm_num at h2

/-- C3: characterisation of the fallback renderer's out-of-range point
accesses.  A segment walk step goes out of range exactly for a `Rectangle`
segment with fewer than two points: every other segment kind guards its
point accesses and skips a malformed segment, but the `Rectangle` case reads
`seg.points[0]` and `seg.points[1]` unconditionally. -/
theorem C3_renderer_bounds (cosF sinF : ℚ → ℚ) (piQ : ℚ) (fm : FillRule)
    (st : RenderState) (seg : fxPathSegment) :
    drawSeg cosF sinF piQ fm st seg = none ↔
      seg.type = .Rectangle ∧ seg.points.length < 2 := by
  obtain ⟨ty, pts, r, sa, ea, cw⟩ := seg
  cases ty <;>
    rcases pts with _ | ⟨p0, _ | ⟨p1, _ | ⟨p2, rest⟩⟩⟩ <;>
    cases hb : st.haveLastPt <;>
    simp [drawSeg, hb, ite_eq_iff]

/-- A single walk step only ever emits a `drawPolygon` call for a `Close` or
`RoundedRectangle` segment; every other call it appends is a polyline,
rectangle or ellipse primitive. -/
lemma drawSeg_poly_sources (cosF sinF : ℚ → ℚ) (piQ : ℚ) (fm : FillRule)
    (st : RenderState) (seg : fxPathSegment) (st' : RenderState)
    (h : drawSeg cosF sinF piQ fm st seg = some st')
    (pts : List (ℤ × ℤ)) (fm2 : FillRule)
    (hm : DCCall.drawPolygon pts fm2 ∈ st'.calls) :
    DCCall.drawPolygon pts fm2 ∈ st.calls ∨
      seg.type = .Close ∨ seg.type = .RoundedRectangle := by
  simp only [drawSeg] at h
  repeat' split at h
  all_goals first
    | exact Option.noConfusion h
    | (injection h with h
       subst h)
  all_goals
    simp_all only [List.mem_append, List.mem_singleton, List.mem_cons,
      List.not_mem_nil, or_false, false_or]
  all_goals try tauto

/-- Across a whole segment walk, `drawPolygon` calls can only originate from
`Close` or `RoundedRectangle` segments. -/
lemma runSegs_poly_sources (cosF sinF : ℚ → ℚ) (piQ : ℚ) (fm : FillRule) :
    ∀ (segs : List fxPathSegment) (st st' : RenderState),
    runSegs cosF sinF piQ fm st segs = some st' →
    ∀ (pts : List (ℤ × ℤ)) (fm2 : FillRule),
    DCCall.drawPolygon pts fm2 ∈ st'.calls →
    DCCall.drawPolygon pts fm2 ∈ st.calls ∨
      ∃ seg ∈ segs, seg.type = .Close ∨ seg.type = .RoundedRectangle := by
  intro segs
  induction segs with
  | nil =>
    intro st st' h pts fm2 hm
    rw [runSegs] at h
    injection h with h
    subst h
    exact Or.inl hm
  | cons seg rest ih =>
    intro st st' h pts fm2 hm
    rw [runSegs] at h
    cases hd : drawSeg cosF sinF piQ fm st seg with
    | none => rw [hd] at h; exact Option.noConfusion h
    | some st1 =>
      rw [hd] at h
      rcases ih st1 st' h pts fm2 hm with h1 | ⟨s, hs, hty⟩
      · rcases drawSeg_poly_sources cosF sinF piQ fm st seg st1 hd pts fm2 h1 with
          h2 | hty
        · exact Or.inl h2
        · exact Or.inr ⟨seg, by simp, hty⟩
      · exact Or.inr ⟨s, by simp [hs], hty⟩

/-- C6 (amended): the fallback renderer flushes a subpath left open at the
end of the segment sequence — and any pending subpath displaced by a
`MoveTo` — with a `DrawLines` polyline call, in every draw mode; no polygon
fill of the open point set is attempted.  A `drawPolygon` call appears in
the output only if the path contains a `Close` or `RoundedRectangle`
segment. -/
theorem C6_open_subpath_polyline (cosF sinF : ℚ → ℚ) (piQ : ℚ) (fm : FillRule)
    (p : fxGraphicsPath) (res : List DCCall)
    (h : DrawPathOnDC cosF sinF piQ p fm = some res)
    (pts : List (ℤ × ℤ)) (fm2 : FillRule)
    (hm : DCCall.drawPolygon pts fm2 ∈ res) :
    ∃ seg ∈ p.segments, seg.type = .Close ∨ seg.type = .RoundedRectangle := by
  rw [DrawPathOnDC] at h
  split at h
  · injection h with h
    subst h
    exact absurd hm (List.not_mem_nil _)
  · cases hr : runSegs cosF sinF piQ fm initRenderState p.segments with
    | none => rw [hr] at h; exact Option.noConfusion h
    | some st =>
      rw [hr] at h
      injection h with h
      subst h
      rcases List.mem_append.1 hm with hm1 | hm2
      · rcases runSegs_poly_sources cosF sinF piQ fm p.segments initRenderState st
          hr pts fm2 hm1 with h1 | h2
        · exact absurd h1 (List.not_mem_nil _)
        · exact h2
      · split at hm2
        · exact absurd hm2 (List.not_mem_nil _)
        · rw [List.mem_singleton] at hm2
          exact DCCall.noConfusion hm2

/-- C6 counterexample: rendering `MoveTo (0,0); LineTo (10,0)` — a segment
sequence ending with an open subpath — in fill mode (`wxWINDING_RULE`)
emits exactly one `DrawLines` polyline call and no polygon-fill call at all,
refuting the claim that fill/outline modes draw the open point set as a
best-effort filled polygon. -/
theorem C6_open_subpath_counterexample :
    DrawPathOnDC (fun q => q) (fun q => q) (355 / 113)
      ⟨none, [{ type := .MoveTo, points := [(0, 0)] },
              { type := .LineTo, points := [(10, 0)] }]⟩ .winding =
      some [.drawLines [(0, 0), (10, 0)]] := by
  decide

/-- C6 witness: the amended theorem applied to a path whose `drawPolygon`
output call does come from an explicit `Close` segment. -/
theorem C6_open_subpath_polyline_witness :
    ∃ seg ∈ (fxGraphicsPath.mk none
      [{ type := .MoveTo, points := [(0, 0)] },
       { type := .LineTo, points := [(1, 0)] },
       { type := .Close, points := [] }]).segments,
      seg.type = .Close ∨ seg.type = .RoundedRectangle :=
  C6_open_subpath_polyline (fun q => q) (fun q => q) (355 / 113) .winding
    ⟨none, [{ type := .MoveTo, points := [(0, 0)] },
            { type := .LineTo, points := [(1, 0)] },
            { type := .Close, points := [] }]⟩
    [.drawPolygon [(0, 0), (1, 0)] .winding]
    (by decide) [(0, 0), (1, 0)] .winding (by decide)

/-- All recorded points of a segment list, in traversal order (the nested
loop of `ComputeSegmentsBoundingBox` flattened). -/
def allPoints (segs : List fxPathSegment) : List (ℚ × ℚ) :=
  (segs.map fxPathSegment.points).flatten

/-- Translation of a rectangle by `(dx, dy)`. -/
def translateRect (dx dy : ℚ) (r : Rect2D) : Rect2D :=
  ⟨r.x + dx, r.y + dy, r.w, r.h⟩

/-- The nested segment/point fold of the bounding-box computation equals the
fold over the flattened point list. -/
lemma foldl_points_join (segs : List fxPathSegment)
    (init : (ℚ × ℚ) × (ℚ × ℚ)) :
    segs.foldl (fun acc seg => seg.points.foldl bbStep acc) init =
      (allPoints segs).foldl bbStep init := by
  induction segs generalizing init with
  | nil => rfl
  | cons s t ih =>
    rw [List.foldl_cons, ih (s.points.foldl bbStep init), allPoints, allPoints,
      List.map_cons, List.flatten_cons, List.foldl_append]

/-- The source's `if`-based min/max update equals `min`/`max`. -/
lemma bbStep_eq (a b c d : ℚ) (p : ℚ × ℚ) :
    bbStep ((a, b), (c, d)) p =
      ((min a p.1, min b p.2), (max c p.1, max d p.2)) := by
  have hmin : ∀ m x : ℚ, (if x < m then x else m) = min m x := by
    intro m x
    rcases lt_or_le x m with h | h
    · rw [if_pos h, min_eq_right h.le]
    · rw [if_neg (not_lt.2 h), min_eq_left h]
  have hmax : ∀ m x : ℚ, (if x > m then x else m) = max m x := by
    intro m x
    rcases lt_or_le m x with h | h
    · rw [if_pos h, max_eq_right h.le]
    · rw [if_neg (not_lt.2 h), max_eq_left h]
  simp [bbStep, hmin, hmax]

/-- The bounding-box fold splits into four independent coordinate folds. -/
lemma foldl_bbStep_decomp (pts : List (ℚ × ℚ)) (a b c d : ℚ) :
    pts.foldl bbStep ((a, b), (c, d)) =
      (((pts.map Prod.fst).foldl min a, (pts.map Prod.snd).foldl min b),
       ((pts.map Prod.fst).foldl max c, (pts.map Prod.snd).foldl max d)) := by
  induction pts generalizing a b c d with
  | nil => rfl
  | cons p t ih =>
    rw [List.foldl_cons, bbStep_eq, List.map_cons, List.map_cons,
      List.foldl_cons, List.foldl_cons, List.foldl_cons, List.foldl_cons]
    exact ih (min a p.1) (min b p.2) (max c p.1) (max d p.2)

/-- Folding `min` over a list shifted by `dz`, from a shifted seed. -/
lemma foldl_min_map_add (xs : List ℚ) (c dz : ℚ) :
    (xs.map (· + dz)).foldl min (c + dz) = xs.foldl min c + dz := by
  induction xs generalizing c with
  | nil => rfl
  | cons x t ih =>
    rw [List.map_cons, List.foldl_cons, List.foldl_cons, min_add_add_right]
    exact ih (min c x)

/-- Folding `max` over a list shifted by `dz`, from a shifted seed. -/
lemma foldl_max_map_add (xs : List ℚ) (c dz : ℚ) :
    (xs.map (· + dz)).foldl max (c + dz) = xs.foldl max c + dz := by
  induction xs generalizing c with
  | nil => rfl
  | cons x t ih =>
    rw [List.map_cons, List.foldl_cons, List.foldl_cons, max_add_add_right]
    exact ih (max c x)

/-- A `min` fold over a nonempty list ignores the seed as soon as the head
is below both seeds. -/
lemma foldl_min_init_irrel (x : ℚ) (t : List ℚ) (c c' : ℚ)
    (h : x ≤ c) (h' : x ≤ c') :
    (x :: t).foldl min c = (x :: t).foldl min c' := by
  rw [List.foldl_cons, List.foldl_cons, min_eq_right h, min_eq_right h']

/-- A `max` fold over a nonempty list ignores the seed as soon as the head
is above both seeds. -/
lemma foldl_max_init_irrel (x : ℚ) (t : List ℚ) (c c' : ℚ)
    (h : c ≤ x) (h' : c' ≤ x) :
    (x :: t).foldl max c = (x :: t).foldl max c' := by
  rw [List.foldl_cons, List.foldl_cons, max_eq_right h, max_eq_right h']

/-- Translating every coordinate commutes with the sentinel-seeded `min`
fold, provided every coordinate stays within the sentinel before and after
the shift. -/
lemma foldl_min_translate (zs : List ℚ) (dz : ℚ) (hne : zs ≠ [])
    (h1 : ∀ z ∈ zs, z ≤ 10 ^ 9) (h2 : ∀ z ∈ zs, z + dz ≤ 10 ^ 9) :
    (zs.map (· + dz)).foldl min (10 ^ 9) = zs.foldl min (10 ^ 9) + dz := by
  obtain ⟨x, t, rfl⟩ := List.exists_cons_of_ne_nil hne
  have key := foldl_min_map_add (x :: t) (10 ^ 9) dz
  simp only [List.map_cons] at key ⊢
  rw [foldl_min_init_irrel (x + dz) _ (10 ^ 9) (10 ^ 9 + dz)
    (h2 x (by simp)) (by have := h1 x (by simp); linarith)]
  exact key

/-- Translating every coordinate commutes with the sentinel-seeded `max`
fold, provided every coordinate stays within the sentinel before and after
the shift. -/
lemma foldl_max_translate (zs : List ℚ) (dz : ℚ) (hne : zs ≠ [])
    (h1 : ∀ z ∈ zs, -(10 ^ 9) ≤ z) (h2 : ∀ z ∈ zs, -(10 ^ 9) ≤ z + dz) :
    (zs.map (· + dz)).foldl max (-(10 ^ 9)) = zs.foldl max (-(10 ^ 9)) + dz := by
  obtain ⟨x, t, rfl⟩ := List.exists_cons_of_ne_nil hne
  have key := foldl_max_map_add (x :: t) (-(10 ^ 9)) dz
  simp only [List.map_cons] at key ⊢
  rw [foldl_max_init_irrel (x + dz) _ (-(10 ^ 9)) (-(10 ^ 9) + dz)
    (h2 x (by simp)) (by have := h1 x (by simp); linarith)]
  exact key

/-- Closed form of the bounding box of a nonempty segment list in terms of
the four coordinate folds. -/
lemma box_eq_folds (segs : List fxPathSegment) (hne : segs ≠ []) :
    ComputeSegmentsBoundingBox segs =
      ⟨((allPoints segs).map Prod.fst).foldl min (10 ^ 9),
       ((allPoints segs).map Prod.snd).foldl min (10 ^ 9),
       ((allPoints segs).map Prod.fst).foldl max (-(10 ^ 9)) -
         ((allPoints segs).map Prod.fst).foldl min (10 ^ 9),
       ((allPoints segs).map Prod.snd).foldl max (-(10 ^ 9)) -
         ((allPoints segs).map Prod.snd).foldl min (10 ^ 9)⟩ := by
  rw [ComputeSegmentsBoundingBox, if_neg (by simpa using hne)]
  rw [foldl_points_join, foldl_bbStep_decomp]

/-- The flattened point list of a pointwise-transformed path. -/
lemma allPoints_transform (segs : List fxPathSegment) (f : ℚ × ℚ → ℚ × ℚ) :
    allPoints (segs.map fun seg => { seg with points := seg.points.map f }) =
      (allPoints segs).map f := by
  rw [allPoints, allPoints, List.map_flatten, List.map_map, List.map_map]
  rfl

/-- C7 (amended): for a symbolic-only path with at least one recorded point
whose coordinates — before and after the shift — stay within the
`±10⁹` sentinels of the bounding-box initialisation, transforming by a pure
translation and then taking the bounding box equals taking the bounding box
and translating it.  (The empty path maps to the fixed box `(0,0,0,0)` and
sentinel-exceeding coordinates are clamped, so the restriction is
necessary.) -/
theorem C7_translation_equivariance (nativeBox : ℕ → Rect2D)
    (p : fxGraphicsPath) (dx dy : ℚ)
    (hgc : p.gc = none)
    (hne : allPoints p.segments ≠ [])
    (hb : ∀ pt ∈ allPoints p.segments,
      -(10 ^ 9) ≤ pt.1 ∧ pt.1 ≤ 10 ^ 9 ∧ -(10 ^ 9) ≤ pt.2 ∧ pt.2 ≤ 10 ^ 9 ∧
      -(10 ^ 9) ≤ pt.1 + dx ∧ pt.1 + dx ≤ 10 ^ 9 ∧
      -(10 ^ 9) ≤ pt.2 + dy ∧ pt.2 + dy ≤ 10 ^ 9) :
    (p.TransformPath (translationMat dx dy)).GetBox nativeBox =
      translateRect dx dy (p.GetBox nativeBox) := by
  obtain ⟨gc, segs⟩ := p
  simp only at hgc hne hb
  subst hgc
  have hsegs : segs ≠ [] := by
    intro h
    subst h
    exact hne rfl
  have htp : ∀ pt : ℚ × ℚ,
      (translationMat dx dy).transformPoint pt = (pt.1 + dx, pt.2 + dy) := by
    intro pt
    simp only [GMatrix.transformPoint, translationMat, Prod.mk.injEq]
    constructor <;> ring
  show ComputeSegmentsBoundingBox
      (segs.map fun seg =>
        { seg with points := seg.points.map (translationMat dx dy).transformPoint }) =
    translateRect dx dy (ComputeSegmentsBoundingBox segs)
  rw [box_eq_folds segs hsegs, box_eq_folds _ (by simpa using hsegs),
    allPoints_transform segs _]
  have hfst : ((allPoints segs).map (translationMat dx dy).transformPoint).map
      Prod.fst = ((allPoints segs).map Prod.fst).map (· + dx) := by
    rw [List.map_map, List.map_map]
    apply List.map_congr_left
    intro pt _
    simp [htp pt]
  have hsnd : ((allPoints segs).map (translationMat dx dy).transformPoint).map
      Prod.snd = ((allPoints segs).map Prod.snd).map (· + dy) := by
    rw [List.map_map, List.map_map]
    apply List.map_congr_left
    intro pt _
    simp [htp pt]
  rw [hfst, hsnd]
  have hxne : (allPoints segs).map Prod.fst ≠ [] := by simpa using hne
  have hyne : (allPoints segs).map Prod.snd ≠ [] := by simpa using hne
  have hxub : ∀ z ∈ (allPoints segs).map Prod.fst, z ≤ 10 ^ 9 := by
    intro z hz
    obtain ⟨pt, hpt, rfl⟩ := List.mem_map.1 hz
    exact (hb pt hpt).2.1
  have hxub' : ∀ z ∈ (allPoints segs).map Prod.fst, z + dx ≤ 10 ^ 9 := by
    intro z hz
    obtain ⟨pt, hpt, rfl⟩ := List.mem_map.1 hz
    exact (hb pt hpt).2.2.2.2.2.1
  have hxlb : ∀ z ∈ (allPoints segs).map Prod.fst, -(10 ^ 9) ≤ z := by
    intro z hz
    obtain ⟨pt, hpt, rfl⟩ := List.mem_map.1 hz
    exact (hb pt hpt).1
  have hxlb' : ∀ z ∈ (allPoints segs).map Prod.fst, -(10 ^ 9) ≤ z + dx := by
    intro z hz
    obtain ⟨pt, hpt, rfl⟩ := List.mem_map.1 hz
    exact (hb pt hpt).2.2.2.2.1
  have hyub : ∀ z ∈ (allPoints segs).map Prod.snd, z ≤ 10 ^ 9 := by
    intro z hz
    obtain ⟨pt, hpt, rfl⟩ := List.mem_map.1 hz
    exact (hb pt hpt).2.2.2.1
  have hyub' : ∀ z ∈ (allPoints segs).map Prod.snd, z + dy ≤ 10 ^ 9 := by
    intro z hz
    obtain ⟨pt, hpt, rfl⟩ := List.mem_map.1 hz
    exact (hb pt hpt).2.2.2.2.2.2.2
  have hylb : ∀ z ∈ (allPoints segs).map Prod.snd, -(10 ^ 9) ≤ z := by
    intro z hz
    obtain ⟨pt, hpt, rfl⟩ := List.mem_map.1 hz
    exact (hb pt hpt).2.2.1
  have hylb' : ∀ z ∈ (allPoints segs).map Prod.snd, -(10 ^ 9) ≤ z + dy := by
    intro z hz
    obtain ⟨pt, hpt, rfl⟩ := List.mem_map.1 hz
    exact (hb pt hpt).2.2.2.2.2.2.1
  rw [foldl_min_translate _ dx hxne hxub hxub',
    foldl_min_translate _ dy hyne hyub hyub',
    foldl_max_translate _ dx hxne hxlb hxlb',
    foldl_max_translate _ dy hyne hylb hylb']
  simp only [translateRect, Rect2D.mk.injEq]
  refine ⟨trivial, trivial, by ring, by ring⟩

/-- C7 counterexample: on the empty symbolic path, translating by `(1, 0)`
and taking the bounding box gives the fixed empty box `(0,0,0,0)`, while
translating the original bounding box gives `(1,0,0,0)` — the claim fails
without a nonemptiness restriction. -/
theorem C7_translation_counterexample :
    (fxGraphicsPath.empty.TransformPath (translationMat 1 0)).GetBox
        (fun _ => ⟨0, 0, 0, 0⟩) ≠
      translateRect 1 0 (fxGraphicsPath.empty.GetBox (fun _ => ⟨0, 0, 0, 0⟩)) := by
  intro h
  have hx : (0 : ℚ) = 0 + 1 := congrArg Rect2D.x h
  norm_num at hx

/-- C7 witness: the amended theorem applied to the one-point path
`MoveTo (1,2)` translated by `(3,4)`. -/
theorem C7_translation_equivariance_witness :
    (fxGraphicsPath.TransformPath
        ⟨none, [{ type := .MoveTo, points := [(1, 2)] }]⟩
        (translationMat 3 4)).GetBox (fun _ => ⟨0, 0, 0, 0⟩) =
      translateRect 3 4
        ((fxGraphicsPath.mk none
          [{ type := .MoveTo, points := [(1, 2)] }]).GetBox
            (fun _ => ⟨0, 0, 0, 0⟩)) :=
  C7_translation_equivariance (fun _ => ⟨0, 0, 0, 0⟩)
    ⟨none, [{ type := .MoveTo, points := [(1, 2)] }]⟩ 3 4 rfl
    (by simp [allPoints])
    (by
      intro pt hpt
      rw [show allPoints
        (fxGraphicsPath.mk none
          [{ type := .MoveTo, points := [(1, 2)] }]).segments = [(1, 2)] from rfl,
        List.mem_singleton] at hpt
      subst hpt
      norm_num)

/-- C10 (amended): with no native path, the bounding box is computed from
recorded points only: a sole `AddCircle (x,y,r)` segment records only the
centre, so its box is the zero-size box `(x,y,0,0)` for every radius, and a
sole `AddArc` segment likewise yields `(x,y,0,0)` for every radius, start
angle, end angle and winding flag — provided the centre lies within the
`±10⁹` sentinels of the box initialisation (outside them the sentinel
clamps the minima); the box never depends on the radius or angle fields. -/
theorem C10_point_only_box (nativeBox : ℕ → Rect2D) (x y r sa ea : ℚ)
    (cw : Bool)
    (hx1 : -(10 ^ 9) ≤ x) (hx2 : x ≤ 10 ^ 9)
    (hy1 : -(10 ^ 9) ≤ y) (hy2 : y ≤ 10 ^ 9) :
    (fxGraphicsPath.empty.AddCircle x y r).GetBox nativeBox = ⟨x, y, 0, 0⟩ ∧
    (fxGraphicsPath.empty.AddArc x y r sa ea cw).GetBox nativeBox =
      ⟨x, y, 0, 0⟩ ∧
    (∀ r', (fxGraphicsPath.empty.AddCircle x y r).GetBox nativeBox =
      (fxGraphicsPath.empty.AddCircle x y r').GetBox nativeBox) ∧
    (∀ r' sa' ea' cw',
      (fxGraphicsPath.empty.AddArc x y r sa ea cw).GetBox nativeBox =
        (fxGraphicsPath.empty.AddArc x y r' sa' ea' cw').GetBox nativeBox) := by
  have key : ∀ seg : fxPathSegment, seg.points = [(x, y)] →
      ComputeSegmentsBoundingBox [seg] = ⟨x, y, 0, 0⟩ := by
    intro seg hpts
    rw [ComputeSegmentsBoundingBox, if_neg (by simp)]
    simp only [List.foldl_cons, List.foldl_nil, hpts]
    rw [bbStep_eq, min_eq_right hx2, min_eq_right hy2,
      max_eq_right hx1, max_eq_right hy1]
    rw [sub_self, sub_self]
  refine ⟨key ⟨.Ellipse, [(x, y)], r, 0, 0, false⟩ rfl,
    key ⟨.Arc, [(x, y)], r, sa, ea, cw⟩ rfl,
    fun r' => ?_, fun r' sa' ea' cw' => ?_⟩
  · exact (key ⟨.Ellipse, [(x, y)], r, 0, 0, false⟩ rfl).trans
      (key ⟨.Ellipse, [(x, y)], r', 0, 0, false⟩ rfl).symm
  · exact (key ⟨.Arc, [(x, y)], r, sa, ea, cw⟩ rfl).trans
      (key ⟨.Arc, [(x, y)], r', sa', ea', cw'⟩ rfl).symm

/-- C10 counterexample: for a circle centred at `x = 2·10⁹` — beyond the
`10⁹` sentinel — the recorded box is *not* `(x, y, 0, 0)`: the sentinel
survives as the minimum and the box degenerates to `(10⁹, 0, 10⁹, 0)`. -/
theorem C10_sentinel_counterexample :
    (fxGraphicsPath.empty.AddCircle (2 * 10 ^ 9) 0 5).GetBox
        (fun _ => ⟨0, 0, 0, 0⟩) ≠ ⟨2 * 10 ^ 9, 0, 0, 0⟩ := by
  intro h
  have hx := congrArg Rect2D.x h
  rw [show (fxGraphicsPath.empty.AddCircle (2 * 10 ^ 9) 0 5).GetBox
      (fun _ => ⟨0, 0, 0, 0⟩) =
      ComputeSegmentsBoundingBox
        [{ type := .Ellipse, points := [(2 * 10 ^ 9, 0)], radius := 5 }]
    from rfl, ComputeSegmentsBoundingBox, if_neg (by simp)] at hx
  simp only [List.foldl_cons, List.foldl_nil, bbStep_eq] at hx
  rw [min_eq_left (by norm_num)] at hx
  norm_num at hx

/-- C10 witness: the amended theorem at centre `(1,2)`, radius `7`, angles
`0` and `1`, clockwise. -/
theorem C10_point_only_box_witness :
    (fxGraphicsPath.empty.AddCircle 1 2 7).GetBox (fun _ => ⟨0, 0, 0, 0⟩) =
      ⟨1, 2, 0, 0⟩ ∧
    (fxGraphicsPath.empty.AddArc 1 2 7 0 1 true).GetBox (fun _ => ⟨0, 0, 0, 0⟩) =
      ⟨1, 2, 0, 0⟩ ∧
    (∀ r', (fxGraphicsPath.empty.AddCircle 1 2 7).GetBox (fun _ => ⟨0, 0, 0, 0⟩) =
      (fxGraphicsPath.empty.AddCircle 1 2 r').GetBox (fun _ => ⟨0, 0, 0, 0⟩)) ∧
    (∀ r' sa' ea' cw',
      (fxGraphicsPath.empty.AddArc 1 2 7 0 1 true).GetBox (fun _ => ⟨0, 0, 0, 0⟩) =
        (fxGraphicsPath.empty.AddArc 1 2 r' sa' ea' cw').GetBox
          (fun _ => ⟨0, 0, 0, 0⟩)) :=
  C10_point_only_box (fun _ => ⟨0, 0, 0, 0⟩) 1 2 7 0 1 true
    (by norm_num) (by norm_num) (by norm_num) (by norm_num)
